import Mathlib

/-!
Shallow embedding of the `socks-parser` crate: the SOCKS4/SOCKS5 wire codec
(`common.rs`, `common/v4.rs`, `common/v5.rs`, `common/v5/address_type.rs`,
`request.rs`, `response.rs`), the client handshake (`client.rs`) and the
server handshake (`server.rs`).

Nats are modelled as `Nat` (wellformed inputs have every element `< 256`).
The nom error discipline is modelled explicitly: `streaming` number parsers
report `incomplete` on short input, `complete` number parsers report a
recoverable error of kind `eof`; `nom::Err::Error` and `nom::Err::Failure`
are the `error` / `failure` constructors below, each carrying the list of
error entries a `VerboseError` would accumulate (base error kind first,
contexts appended by `nom::error::context` / `add_context`).
-/


/-- The error kinds of `nom::error::ErrorKind` used by this crate. -/
inductive NomKind where
  | eof
  | tagKind
  | takeWhileOne
  | mapOpt
  | verify
  | noneOf
  | count
  deriving DecidableEq, Repr

/-- One entry of a `nom::error::VerboseError`: an error kind or a context label. -/
inductive ErrEntry where
  | ekind (k : NomKind)
  | ectx (s : String)
  deriving DecidableEq, Repr

/-- The accumulated entries of a `nom::error::VerboseError`, base kind first. -/
structure NomError where
  entries : List ErrEntry
  deriving DecidableEq, Repr

def mkNomError (k : NomKind) : NomError := ⟨[.ekind k]⟩

/-- `nom::error::ContextError::add_context` on a `VerboseError` appends the label. -/
def NomError.addCtx (e : NomError) (s : String) : NomError := ⟨e.entries ++ [.ectx s]⟩

/-- `nom::error::ParseError::append` on a `VerboseError` appends the kind. -/
def NomError.appendKind (e : NomError) (k : NomKind) : NomError := ⟨e.entries ++ [.ekind k]⟩

/-- The three arms of `nom::Err`. -/
inductive NErr where
  | incomplete (needed : Option Nat)
  | error (e : NomError)
  | failure (e : NomError)
  deriving DecidableEq, Repr

/-- Result of a decode: unconsumed remainder plus the value, or a `nom::Err`. -/
abbrev PResult (α : Type) := Except NErr (List Nat × α)

abbrev ParserFn (α : Type) := List Nat → PResult α

/-- `nom::error::context`: adds a label to `Error`/`Failure`, leaves
`Incomplete` and successes untouched. -/
def pcontext {α : Type} (s : String) (p : ParserFn α) : ParserFn α := fun i =>
  match p i with
  | .error (.error e) => .error (.error (e.addCtx s))
  | .error (.failure e) => .error (.failure (e.addCtx s))
  | r => r

/-- `nom::number::streaming::be_u8`. -/
def be_u8_s : ParserFn Nat := fun i =>
  match i with
  | [] => .error (.incomplete (some 1))
  | b :: r => .ok (r, b)

/-- `nom::number::complete::be_u8`. -/
def be_u8_c : ParserFn Nat := fun i =>
  match i with
  | [] => .error (.error (mkNomError .eof))
  | b :: r => .ok (r, b)

/-- `nom::number::streaming::be_u16`. -/
def be_u16_s : ParserFn Nat := fun i =>
  match i with
  | b1 :: b2 :: r => .ok (r, b1 * 256 + b2)
  | [_] => .error (.incomplete (some 1))
  | [] => .error (.incomplete (some 2))

/-- `nom::number::complete::be_u16`. -/
def be_u16_c : ParserFn Nat := fun i =>
  match i with
  | b1 :: b2 :: r => .ok (r, b1 * 256 + b2)
  | _ => .error (.error (mkNomError .eof))

/-- `nom::combinator::opt`: recoverable errors become `none`,
`Failure` and `Incomplete` propagate. -/
def popt {α : Type} (p : ParserFn α) : ParserFn (Option α) := fun i =>
  match p i with
  | .ok (r, a) => .ok (r, some a)
  | .error (.error _) => .ok (i, none)
  | .error e => .error e

/-- Big-endian bytes of `u16::to_be_bytes`. -/
def u16_be (p : Nat) : List Nat := [p / 256 % 256, p % 256]

/-- State machine for `str::from_utf8` validity on raw bytes (the checks Rust
performs: continuation bytes, overlong forms, surrogates, maximum code
point). The first argument is the number of continuation bytes still
expected, the next two the admissible range (inclusive-exclusive) of the next
expected byte. -/
def utf8Go : Nat → Nat → Nat → List Nat → Bool
  | 0, _, _, [] => true
  | 0, _, _, b :: rest =>
    if b < 0x80 then utf8Go 0 0 0 rest
    else if 0xc2 ≤ b ∧ b < 0xe0 then utf8Go 1 0x80 0xc0 rest
    else if b = 0xe0 then utf8Go 2 0xa0 0xc0 rest
    else if 0xe1 ≤ b ∧ b ≤ 0xec then utf8Go 2 0x80 0xc0 rest
    else if b = 0xed then utf8Go 2 0x80 0xa0 rest
    else if 0xee ≤ b ∧ b ≤ 0xef then utf8Go 2 0x80 0xc0 rest
    else if b = 0xf0 then utf8Go 3 0x90 0xc0 rest
    else if 0xf1 ≤ b ∧ b ≤ 0xf3 then utf8Go 3 0x80 0xc0 rest
    else if b = 0xf4 then utf8Go 3 0x80 0x90 rest
    else false
  | _ + 1, _, _, [] => false
  | n + 1, lo, hi, b :: rest =>
    if lo ≤ b ∧ b < hi then utf8Go n 0x80 0xc0 rest else false

/-- `str::from_utf8` validity of a whole byte sequence. -/
def utf8Valid (l : List Nat) : Bool := utf8Go 0 0 0 l

/-- `std::net::Ipv4Addr`, as its four octets. -/
structure Ipv4Addr where
  o1 : Nat
  o2 : Nat
  o3 : Nat
  o4 : Nat
  deriving DecidableEq, Repr

def Ipv4Addr.octets (ip : Ipv4Addr) : List Nat := [ip.o1, ip.o2, ip.o3, ip.o4]

/-- Modelled from the spec: the `Wire` impl for `Ipv4Addr` is referenced by
`common/v5/address_type.rs` and `response.rs` but its definition is not under
`src/`; per section 4.1 of the spec it is the 4 big-endian octets, and per
section 7 insufficient input is reported as `Incomplete`. -/
def Ipv4Addr.decode : ParserFn Ipv4Addr := fun i =>
  match i with
  | a :: b :: c :: d :: r => .ok (r, ⟨a, b, c, d⟩)
  | _ => .error (.incomplete (some (4 - i.length)))

def Ipv4Addr.encode_into (ip : Ipv4Addr) (buffer : List Nat) : List Nat :=
  buffer ++ ip.octets

/-- `std::net::Ipv6Addr`, as its sixteen octets. -/
structure Ipv6Addr where
  octets : List Nat
  deriving DecidableEq, Repr

def Ipv6Addr.wf (ip : Ipv6Addr) : Prop := ip.octets.length = 16

/-- Modelled from the spec: the `Wire` impl for `Ipv6Addr` is referenced by
`common/v5/address_type.rs` but its definition is not under `src/`; per
section 4.1 of the spec it is the 16 octets (8 big-endian 16-bit groups), and
per section 7 insufficient input is reported as `Incomplete`. -/
def Ipv6Addr.decode : ParserFn Ipv6Addr := fun i =>
  if i.length < 16 then .error (.incomplete (some (16 - i.length)))
  else .ok (i.drop 16, ⟨i.take 16⟩)

def Ipv6Addr.encode_into (ip : Ipv6Addr) (buffer : List Nat) : List Nat :=
  buffer ++ ip.octets

/-- Modelled from the spec: the crate-level `Version` enum. The copy of
`common.rs` under `src/` is a stale variant (it lacks the `Socks4` arm and the
`v4`/`v5` submodule declarations that `lib.rs`, `request.rs`, `client.rs` and
`server.rs` all rely on), so the authoritative definition is missing from
`src/`. Per section 3 of the spec: wire value is a single byte, 4 or 5, and
any other byte is a decode failure. -/
inductive Version where
  | Socks4
  | Socks5
  deriving DecidableEq, Repr

def Version.as_u8 : Version → Nat
  | .Socks4 => 4
  | .Socks5 => 5

def Version.encode_into (v : Version) (buffer : List Nat) : List Nat :=
  buffer ++ [v.as_u8]

/-- Modelled from the spec: decode of the two-variant `Version` (see the
comment on `Version`). A single byte is read (streaming, as in the stale
variant of `common.rs`); 4 and 5 map to the two variants, anything else is a
recoverable decode failure labelled `SocksVersion`. -/
def Version.decode : ParserFn Version := fun buffer =>
  match pcontext "SocksVersion" be_u8_s buffer with
  | .error e => .error e
  | .ok (rest, b) =>
    if b = 4 then .ok (rest, .Socks4)
    else if b = 5 then .ok (rest, .Socks5)
    else .error (.error ((mkNomError .verify).addCtx "SocksVersion"))

/-- `verify(Version::decode, |&v| v == want)` as used by the message decoders. -/
def verify_version (want : Version) : ParserFn Version := fun i =>
  match Version.decode i with
  | .error e => .error e
  | .ok (r, v) => if v = want then .ok (r, v) else .error (.error (mkNomError .verify))

/-- `common/v5.rs`: `AuthenticationMethod`. -/
inductive AuthenticationMethod where
  | None
  | Gssapi
  | UsernamePassword
  | IanaAssigned (v : Nat)
  | PrivateMethod (v : Nat)
  | NotAcceptable
  deriving DecidableEq, Repr

/-- `impl From<u8> for AuthenticationMethod`. -/
def AuthenticationMethod.fromNat (value : Nat) : AuthenticationMethod :=
  if value = 0 then .None
  else if value = 1 then .Gssapi
  else if value = 2 then .UsernamePassword
  else if value ≤ 0x7f then .IanaAssigned value
  else if value ≤ 0xfe then .PrivateMethod value
  else .NotAcceptable

def AuthenticationMethod.as_u8 : AuthenticationMethod → Nat
  | .None => 0
  | .Gssapi => 1
  | .UsernamePassword => 2
  | .IanaAssigned v => v
  | .PrivateMethod v => v
  | .NotAcceptable => 0xff

def AuthenticationMethod.encode_into (m : AuthenticationMethod) (buffer : List Nat) :
    List Nat :=
  buffer ++ [m.as_u8]

/-- `common/v5.rs`: `AuthenticationMethod::decode` (a single `complete` byte,
total mapping; the context label in the source really is `SocksVersion`). -/
def AuthenticationMethod.decode : ParserFn AuthenticationMethod := fun buffer =>
  match pcontext "SocksVersion" be_u8_c buffer with
  | .error e => .error e
  | .ok (rest, b) => .ok (rest, AuthenticationMethod.fromNat b)

/-- Wellformedness of an `AuthenticationMethod` value: the payload-carrying
variants only arise from bytes in their ranges. -/
def AuthenticationMethod.wf : AuthenticationMethod → Prop
  | .IanaAssigned v => 3 ≤ v ∧ v ≤ 0x7f
  | .PrivateMethod v => 0x80 ≤ v ∧ v ≤ 0xfe
  | _ => True

/-- `common/v5.rs`: `Command`. -/
inductive v5.Command where
  | Connect
  | Bind
  | UdpAssociate
  deriving DecidableEq, Repr

def v5.Command.as_u8 : v5.Command → Nat
  | .Connect => 1
  | .Bind => 2
  | .UdpAssociate => 3

def v5.Command.encode_into (c : v5.Command) (buffer : List Nat) : List Nat :=
  buffer ++ [c.as_u8]

/-- `common/v5.rs`: `Command::decode` (complete byte; unknown tag is a
fatal `Failure` of kind `NoneOf` with no extra context). -/
def v5.Command.decode : ParserFn v5.Command := fun buffer =>
  match pcontext "Socks V5 command" be_u8_c buffer with
  | .error e => .error e
  | .ok (rest, command) =>
    if command = 1 then .ok (rest, .Connect)
    else if command = 2 then .ok (rest, .Bind)
    else if command = 3 then .ok (rest, .UdpAssociate)
    else .error (.failure (mkNomError .noneOf))

/-- `common/v4.rs`: `Command` (no UdpAssociate in v4). -/
inductive v4.Command where
  | Connect
  | Bind
  deriving DecidableEq, Repr

def v4.Command.as_u8 : v4.Command → Nat
  | .Connect => 1
  | .Bind => 2

def v4.Command.encode_into (c : v4.Command) (buffer : List Nat) : List Nat :=
  buffer ++ [c.as_u8]

/-- `common/v4.rs`: `Command::decode` (the context label in the source really
is `Socks V5 command`). -/
def v4.Command.decode : ParserFn v4.Command := fun buffer =>
  match pcontext "Socks V5 command" be_u8_c buffer with
  | .error e => .error e
  | .ok (rest, command) =>
    if command = 1 then .ok (rest, .Connect)
    else if command = 2 then .ok (rest, .Bind)
    else .error (.failure (mkNomError .noneOf))

/-- `common/v5/address_type.rs`: `AddressType` (domain names kept as their
UTF-8 bytes; a Rust `String` is exactly a valid-UTF-8 byte sequence). -/
inductive v5.AddressType where
  | IPv4 (ip : Ipv4Addr)
  | DomainName (name : List Nat)
  | IPv6 (ip : Ipv6Addr)
  deriving DecidableEq, Repr

/-- `common/v5/address_type.rs`: `AddressType::encode_into`. -/
def v5.AddressType.encode_into : v5.AddressType → List Nat → List Nat
  | .IPv4 ip4, buffer => Ipv4Addr.encode_into ip4 (buffer ++ [1])
  | .IPv6 ip6, buffer => Ipv6Addr.encode_into ip6 (buffer ++ [4])
  | .DomainName name, buffer => buffer ++ [3] ++ [name.length] ++ name

/-- `common/v5/address_type.rs`: `AddressType::decode`. Tag byte 1/3/4
dispatch; any other tag is a fatal failure with context
`Invalid address type`; the domain branch is
`length_data(be_u8)` (which reports `Incomplete` when the counted bytes are
missing) followed by a UTF-8 check (`map_opt`). -/
def v5.AddressType.decode : ParserFn v5.AddressType := fun buffer =>
  match pcontext "address type" be_u8_c buffer with
  | .error e => .error e
  | .ok (rest, address_type) =>
    if address_type = 1 then
      match Ipv4Addr.decode rest with
      | .error e => .error e
      | .ok (r, ip) => .ok (r, .IPv4 ip)
    else if address_type = 3 then
      pcontext "domain name"
        (fun i =>
          match be_u8_c i with
          | .error e => .error e
          | .ok (r, len) =>
            if r.length < len then .error (.incomplete (some (len - r.length)))
            else if utf8Valid (r.take len) then
              .ok (r.drop len, v5.AddressType.DomainName (r.take len))
            else .error (.error (mkNomError .mapOpt)))
        rest
    else if address_type = 4 then
      match Ipv6Addr.decode rest with
      | .error e => .error e
      | .ok (r, ip) => .ok (r, .IPv6 ip)
    else .error (.failure ((mkNomError .noneOf).addCtx "Invalid address type"))

/-- Wellformedness of a v5 address value: domain names fit the one-byte
length and are valid UTF-8, IPv6 carries exactly 16 octets. -/
def v5.AddressType.wf : v5.AddressType → Prop
  | .IPv4 _ => True
  | .DomainName name => name.length ≤ 255 ∧ utf8Valid name = true
  | .IPv6 ip => ip.wf

/-- `common/v4.rs`: `AddressType` (no IPv6 arm). -/
inductive v4.AddressType where
  | IPv4 (ip : Ipv4Addr)
  | DomainName (name : List Nat)
  deriving DecidableEq, Repr

/-- `response.rs` (v4): `Status`. -/
inductive v4.Status where
  | Success
  | Rejected
  | InetdNotAccessible
  | InetdNotIdentified
  deriving DecidableEq, Repr

def v4.Status.as_u8 : v4.Status → Nat
  | .Success => 0x5a
  | .Rejected => 0x5b
  | .InetdNotAccessible => 0x5c
  | .InetdNotIdentified => 0x5d

def v4.Status.encode_into (s : v4.Status) (buffer : List Nat) : List Nat :=
  buffer ++ [s.as_u8]

/-- `response.rs` (v4): `Status::decode` (streaming byte; the four known
values, anything else a fatal `Failure` of kind `NoneOf`). -/
def v4.Status.decode : ParserFn v4.Status := fun buffer =>
  match pcontext "status" be_u8_s buffer with
  | .error e => .error e
  | .ok (rest, s) =>
    if s = 0x5a then .ok (rest, .Success)
    else if s = 0x5b then .ok (rest, .Rejected)
    else if s = 0x5c then .ok (rest, .InetdNotAccessible)
    else if s = 0x5d then .ok (rest, .InetdNotIdentified)
    else .error (.failure (mkNomError .noneOf))

/-- `response.rs` (v5): `Status` (total byte mapping, unknown bytes kept in
`Unassigned`; the source spells `HostUnreachalble`). -/
inductive v5.Status where
  | Success
  | GeneralFailure
  | ConnectionNotAllowed
  | NetworkUnreachable
  | HostUnreachalble
  | ConnectionRefused
  | TTLExpired
  | CommandNotSupported
  | Unassigned (v : Nat)
  deriving DecidableEq, Repr

/-- `impl From<u8> for Status` (v5). -/
def v5.Status.fromNat (value : Nat) : v5.Status :=
  if value = 0 then .Success
  else if value = 1 then .GeneralFailure
  else if value = 2 then .ConnectionNotAllowed
  else if value = 3 then .NetworkUnreachable
  else if value = 4 then .HostUnreachalble
  else if value = 5 then .ConnectionRefused
  else if value = 6 then .TTLExpired
  else if value = 7 then .CommandNotSupported
  else .Unassigned value

def v5.Status.as_u8 : v5.Status → Nat
  | .Success => 0
  | .GeneralFailure => 1
  | .ConnectionNotAllowed => 2
  | .NetworkUnreachable => 3
  | .HostUnreachalble => 4
  | .ConnectionRefused => 5
  | .TTLExpired => 6
  | .CommandNotSupported => 7
  | .Unassigned v => v

def v5.Status.encode_into (s : v5.Status) (buffer : List Nat) : List Nat :=
  buffer ++ [s.as_u8]

/-- `response.rs` (v5): `Status::decode` (streaming byte, total mapping). -/
def v5.Status.decode : ParserFn v5.Status := fun buffer =>
  match pcontext "Socks status" be_u8_s buffer with
  | .error e => .error e
  | .ok (rest, b) => .ok (rest, v5.Status.fromNat b)

def v5.Status.wf : v5.Status → Prop
  | .Unassigned v => 8 ≤ v ∧ v ≤ 255
  | _ => True

/-- The run of `nom::multi::length_count` after the count has been read:
`n` iterations of the item decoder; a recoverable item error gets kind
`Count` appended (once), `Failure`/`Incomplete` propagate unchanged. -/
def length_count_go {α : Type} (g : ParserFn α) : Nat → List Nat →
    Except NErr (List Nat × List α)
  | 0, i => .ok (i, [])
  | n + 1, i =>
    match g i with
    | .ok (r, a) =>
      match length_count_go g n r with
      | .ok (r2, as) => .ok (r2, a :: as)
      | .error e => .error e
    | .error (.error e) => .error (.error (e.appendKind .count))
    | .error e => .error e

/-- `request.rs` (v5): `Hello`. -/
structure v5.Hello where
  methods : List AuthenticationMethod
  deriving DecidableEq, Repr

def v5.Hello.encode_into (self : v5.Hello) (buffer : List Nat) : List Nat :=
  let buffer := Version.encode_into .Socks5 buffer
  let buffer := buffer ++ [self.methods.length]
  buffer ++ self.methods.map (fun m => m.as_u8)

def v5.Hello.wf (self : v5.Hello) : Prop :=
  self.methods.length ≤ 255 ∧ ∀ m ∈ self.methods, m.wf

/-- `request.rs` (v5): `Hello::decode` = context `Hello` around
`preceded(verify(Version::decode, == Socks5), length_count(be_u8, AuthenticationMethod::decode))`. -/
def v5.Hello.decode : ParserFn v5.Hello := fun buffer =>
  pcontext "Hello"
    (fun i =>
      match verify_version .Socks5 i with
      | .error e => .error e
      | .ok (i, _) =>
        match be_u8_c i with
        | .error e => .error e
        | .ok (i, n) =>
          match length_count_go AuthenticationMethod.decode n i with
          | .error e => .error e
          | .ok (rest, methods) => .ok (rest, ⟨methods⟩))
    buffer

/-- `request.rs` (v5): `Request`. -/
structure v5.Request where
  command : v5.Command
  addr : v5.AddressType
  port : Nat
  deriving DecidableEq, Repr

def v5.Request.encode_into (self : v5.Request) (buffer : List Nat) : List Nat :=
  let buffer := Version.encode_into .Socks5 buffer
  let buffer := v5.Command.encode_into self.command buffer
  let buffer := buffer ++ [0]
  let buffer := v5.AddressType.encode_into self.addr buffer
  buffer ++ u16_be self.port

def v5.Request.wf (self : v5.Request) : Prop :=
  self.addr.wf ∧ self.port < 65536

/-- `request.rs` (v5): `Request::decode` = context `Request` around
`preceded(verify(Version::decode, == Socks5), tuple((Command::decode, be_u8, AddressType::decode, be_u16)))`
with the third byte (the reserved slot) read by a `complete` `be_u8` and
discarded. -/
def v5.Request.decode : ParserFn v5.Request := fun buffer =>
  pcontext "Request"
    (fun i =>
      match verify_version .Socks5 i with
      | .error e => .error e
      | .ok (i, _) =>
        match v5.Command.decode i with
        | .error e => .error e
        | .ok (i, command) =>
          match be_u8_c i with
          | .error e => .error e
          | .ok (i, _zero) =>
            match v5.AddressType.decode i with
            | .error e => .error e
            | .ok (i, addr) =>
              match be_u16_c i with
              | .error e => .error e
              | .ok (rest, port) => .ok (rest, ⟨command, addr, port⟩))
    buffer

/-- `response.rs` (v5): `Hello` (the hello response carrying the selected
method; re-exported by `lib.rs` as `HelloResponse`). -/
structure v5.HelloResponse where
  method : AuthenticationMethod
  deriving DecidableEq, Repr

def v5.HelloResponse.encode_into (self : v5.HelloResponse) (buffer : List Nat) : List Nat :=
  let buffer := Version.encode_into .Socks5 buffer
  AuthenticationMethod.encode_into self.method buffer

/-- `response.rs` (v5): hello-response decode = context `Hello response`
around `preceded(verify(Version::decode, == Socks5), AuthenticationMethod::decode)`. -/
def v5.HelloResponse.decode : ParserFn v5.HelloResponse := fun buffer =>
  pcontext "Hello response"
    (fun i =>
      match verify_version .Socks5 i with
      | .error e => .error e
      | .ok (i, _) =>
        match AuthenticationMethod.decode i with
        | .error e => .error e
        | .ok (rest, method) => .ok (rest, ⟨method⟩))
    buffer

/-- `response.rs` (v5): `Response`. -/
structure v5.Response where
  status : v5.Status
  addr : v5.AddressType
  port : Nat
  deriving DecidableEq, Repr

def v5.Response.encode_into (self : v5.Response) (buffer : List Nat) : List Nat :=
  let buffer := Version.encode_into .Socks5 buffer
  let buffer := v5.Status.encode_into self.status buffer
  let buffer := buffer ++ [0]
  let buffer := v5.AddressType.encode_into self.addr buffer
  buffer ++ u16_be self.port

def v5.Response.wf (self : v5.Response) : Prop :=
  self.status.wf ∧ self.addr.wf ∧ self.port < 65536

/-- `response.rs` (v5): `Response::decode` = context `Socks response` around
`preceded(verify(Version::decode, == Socks5), tuple((Status::decode, be_u8, AddressType::decode, be_u16)))`
with the reserved third byte read by a `streaming` `be_u8` and discarded. -/
def v5.Response.decode : ParserFn v5.Response := fun buffer =>
  pcontext "Socks response"
    (fun i =>
      match verify_version .Socks5 i with
      | .error e => .error e
      | .ok (i, _) =>
        match v5.Status.decode i with
        | .error e => .error e
        | .ok (i, status) =>
          match be_u8_s i with
          | .error e => .error e
          | .ok (i, _zero) =>
            match v5.AddressType.decode i with
            | .error e => .error e
            | .ok (i, addr) =>
              match be_u16_s i with
              | .error e => .error e
              | .ok (rest, port) => .ok (rest, ⟨status, addr, port⟩))
    buffer

/-- `request.rs` (v4): the byte predicate of the user-id/domain strings:
`b.is_ascii() && b != 0`. -/
def asciiNz (b : Nat) : Bool := decide (b < 0x80) && decide (b ≠ 0)

/-- `request.rs` (v4): `encode_string` (optional bytes then a NUL). -/
def v4.encode_string (s : Option (List Nat)) (buffer : List Nat) : List Nat :=
  buffer ++ (match s with | some s => s | none => []) ++ [0]

/-- `request.rs` (v4): `decode_string` = context `string` around
`map(terminated(opt(take_while1(ascii-nonzero)), tag NUL), utf8-check)`. -/
def v4.decode_string : ParserFn (Option (List Nat)) := fun buffer =>
  pcontext "string"
    (fun i =>
      let body := i.takeWhile asciiNz
      let after := i.dropWhile asciiNz
      let step : PResult (Option (List Nat)) :=
        if body = [] then
          match after with
          | 0 :: r => .ok (r, none)
          | _ => .error (.error (mkNomError .tagKind))
        else
          match after with
          | 0 :: r => .ok (r, if utf8Valid body then some body else none)
          | _ => .error (.error (mkNomError .tagKind))
      step)
    buffer

/-- `request.rs` (v4): `Request`. -/
structure v4.Request where
  command : v4.Command
  addr : v4.AddressType
  port : Nat
  secret : Option (List Nat)
  deriving DecidableEq, Repr

def v4.Request.encode_into (self : v4.Request) (buffer : List Nat) : List Nat :=
  let buffer := Version.encode_into .Socks4 buffer
  let buffer := v4.Command.encode_into self.command buffer
  let buffer := buffer ++ u16_be self.port
  match self.addr with
  | .IPv4 ip4 => v4.encode_string self.secret (buffer ++ ip4.octets)
  | .DomainName n => v4.encode_string (some n) (v4.encode_string self.secret (buffer ++ [0, 0, 0, 1]))

def v4.Request.wf (self : v4.Request) : Prop :=
  self.port < 65536 ∧
  (match self.addr with
   | .IPv4 ip => ip.o1 < 256 ∧ ip.o2 < 256 ∧ ip.o3 < 256 ∧ ip.o4 < 256
   | .DomainName n => n ≠ [] ∧ ∀ b ∈ n, asciiNz b = true) ∧
  (match self.secret with
   | none => True
   | some s => s ≠ [] ∧ ∀ b ∈ s, asciiNz b = true)

/-- `request.rs` (v4): `Request::decode` = context `Socks request` around
`preceded(verify(Version::decode, == Socks4), tuple((Command::decode, be_u16, (be_u8 x4), decode_string, opt(decode_string))))`,
then the trailing-string match: a present non-empty string becomes the
domain-name address, a present empty string is the fatal
`Got empty domain name` failure, an absent string leaves the IPv4 address. -/
def v4.Request.decode : ParserFn v4.Request := fun buffer =>
  match pcontext "Socks request"
      (fun i =>
        match verify_version .Socks4 i with
        | .error e => .error e
        | .ok (i, _) =>
          match v4.Command.decode i with
          | .error e => .error e
          | .ok (i, command) =>
            match be_u16_c i with
            | .error e => .error e
            | .ok (i, port) =>
              match i with
              | a :: b :: c :: d :: i =>
                match v4.decode_string i with
                | .error e => .error e
                | .ok (i, secret) =>
                  match popt v4.decode_string i with
                  | .error e => .error e
                  | .ok (rest, name) => .ok (rest, (command, port, a, b, c, d, secret, name))
              | _ => .error (.error (mkNomError .eof)))
      buffer with
  | .error e => .error e
  | .ok (rest, (command, port, a, b, c, d, secret, name)) =>
    match name with
    | some (some n) => .ok (rest, ⟨command, .DomainName n, port, secret⟩)
    | some none =>
      .error (.failure ((mkNomError .verify).addCtx "Got empty domain name"))
    | none => .ok (rest, ⟨command, .IPv4 ⟨a, b, c, d⟩, port, secret⟩)

/-- `response.rs` (v4): `Response`. -/
structure v4.Response where
  status : v4.Status
  addr : Ipv4Addr
  port : Nat
  deriving DecidableEq, Repr

def v4.Response.encode_into (self : v4.Response) (buffer : List Nat) : List Nat :=
  let buffer := buffer ++ [0]
  let buffer := v4.Status.encode_into self.status buffer
  let buffer := buffer ++ u16_be self.port
  Ipv4Addr.encode_into self.addr buffer

def v4.Response.wf (self : v4.Response) : Prop := self.port < 65536

/-- `response.rs` (v4): `Response::decode` = context `response` around
`preceded(verify(be_u8, == 0), tuple((Status::decode, be_u16, Ipv4Addr::decode)))`
(all streaming). -/
def v4.Response.decode : ParserFn v4.Response := fun buffer =>
  pcontext "response"
    (fun i =>
      match be_u8_s i with
      | .error e => .error e
      | .ok (i, z) =>
        if z = 0 then
          match v4.Status.decode i with
          | .error e => .error e
          | .ok (i, status) =>
            match be_u16_s i with
            | .error e => .error e
            | .ok (i, port) =>
              match Ipv4Addr.decode i with
              | .error e => .error e
              | .ok (rest, addr) => .ok (rest, ⟨status, addr, port⟩)
        else .error (.error (mkNomError .verify)))
    buffer

/-- `lib.rs`: `Destination`. -/
structure Destination where
  addr : v5.AddressType
  port : Nat
  deriving DecidableEq, Repr

/-- `lib.rs`: `ConnectionRequest`. -/
structure ConnectionRequest where
  destination : Destination
  deriving DecidableEq, Repr

/-- `lib.rs`: `ConnectionResponse`. -/
structure ConnectionResponse where
  connected_to : Destination
  status : v5.Status
  deriving DecidableEq, Repr

/-- `lib.rs`: `impl From<ConnectionResponse> for v4::Response` — the v5
status collapses to `Success`/`Rejected`, a non-IPv4 connected address is
replaced by `0.0.0.0`, the port is carried over. -/
def v4.Response.fromConnectionResponse (value : ConnectionResponse) : v4.Response :=
  { status :=
      match value.status with
      | .Success => v4.Status.Success
      | _ => v4.Status.Rejected
    addr :=
      match value.connected_to.addr with
      | .IPv4 ip4 => ip4
      | _ => ⟨0, 0, 0, 0⟩
    port := value.connected_to.port }

/-- `client.rs`: the result of one `Client::connect_v5` run, as a function of
the byte chunks the two `read_buf` calls deliver. `sent` records the
`write_all` payloads in order. The model keeps the exact buffer discipline of
the source: `read_buf` appends to the existing `buffer` vector (which is NOT
cleared before either read), and the decode is applied to `&buffer[..n]`
where `n` is the number of bytes just read. -/
structure ClientRun where
  sent : List (List Nat)
  result : Except String Unit
  deriving Repr

def Client.connect_v5 (addr : v5.AddressType) (port : Nat)
    (read1 read2 : List Nat) : ClientRun :=
  let buffer := v5.Hello.encode_into ⟨[AuthenticationMethod.None]⟩ []
  let sent1 := buffer
  let buffer := buffer ++ read1
  let n := read1.length
  match v5.HelloResponse.decode (buffer.take n) with
  | .error _ => ⟨[sent1], .error "InvalidData"⟩
  | .ok (_, hello_response) =>
    match hello_response.method with
    | .None =>
      let buffer : List Nat := []
      let req : v5.Request := ⟨v5.Command.Connect, addr, port⟩
      let buffer := v5.Request.encode_into req buffer
      let sent2 := buffer
      let buffer := buffer ++ read2
      let n := read2.length
      match v5.Response.decode (buffer.take n) with
      | .error _ => ⟨[sent1, sent2], .error "InvalidData"⟩
      | .ok (_, response) =>
        if response.status = v5.Status.Success then ⟨[sent1, sent2], .ok ()⟩
        else ⟨[sent1, sent2], .error "status"⟩
    | _ => ⟨[sent1], .error "Does not support any authentication method"⟩

/-- `server.rs`: one `Server::handle_client_v5` run. `buffer` is the bytes
read by `handle_client` before dispatch (the hello), `requestNats` the bytes
delivered by the read of the connect request, `handle_request` the external
resolver. Returns the `write_all` payloads in order and the outcome. -/
def Server.handle_client_v5 (buffer requestNats : List Nat)
    (handle_request : ConnectionRequest → Except Unit Destination) :
    List (List Nat) × Except String Unit :=
  match v5.Hello.decode buffer with
  | .error _ => ([], .error "InvalidData")
  | .ok (_, hello) =>
    let method :=
      if AuthenticationMethod.None ∈ hello.methods then AuthenticationMethod.None
      else AuthenticationMethod.NotAcceptable
    let response : v5.HelloResponse := ⟨method⟩
    let w1 := v5.HelloResponse.encode_into response []
    if response.method = AuthenticationMethod.NotAcceptable then
      ([w1], .error "Client requested only unsupported authentication methods")
    else
      match v5.Request.decode requestNats with
      | .error _ => ([w1], .error "InvalidData")
      | .ok (_, req) =>
        let connection_request : ConnectionRequest := ⟨⟨req.addr, req.port⟩⟩
        match handle_request connection_request with
        | .ok destination =>
          let response : v5.Response := ⟨v5.Status.Success, destination.addr, destination.port⟩
          ([w1, v5.Response.encode_into response []], .ok ())
        | .error _ =>
          let response : v5.Response := ⟨v5.Status.GeneralFailure, req.addr, req.port⟩
          ([w1, v5.Response.encode_into response []], .error "downstream")

/-- Tag-inclusive wire length of a v5 address, per the format table. -/
def v5.AddressType.wireLen : v5.AddressType → Nat
  | .IPv4 _ => 5
  | .DomainName n => 2 + n.length
  | .IPv6 _ => 17

/-- The user-id bytes actually written by `encode_string` for an optional
secret. -/
def secNats : Option (List Nat) → List Nat
  | some s => s
  | none => []

/-- Wire length of a v4 request per the format table:
version, command, port, ip4, user id, NUL, and the optional domain suffix. -/
def v4.Request.wireLen (m : v4.Request) : Nat :=
  9 + (secNats m.secret).length +
    (match m.addr with
     | .IPv4 _ => 0
     | .DomainName n => n.length + 1)

/-- The truncation-style outcomes of a decode: either `Incomplete`, or a
recoverable `Error` whose base kind is `Eof` (the report of a `complete`-mode
number parser on short input). -/
def truncRes {α : Type} (r : PResult α) : Prop :=
  (∃ n, r = .error (.incomplete n)) ∨
  (∃ es, r = .error (.error ⟨.ekind .eof :: es⟩))

/-! ### Helper lemmas about the combinators and the leaf codecs -/

theorem be_u16_c_rt (p : Nat) (hp : p < 65536) (r : List Nat) :
    be_u16_c (u16_be p ++ r) = .ok (r, p) := by
  have h1 : p / 256 < 256 := by omega
  have hv : p / 256 * 256 + p % 256 = p := by omega
  simp [u16_be, be_u16_c, Nat.mod_eq_of_lt h1, hv]

theorem be_u16_s_rt (p : Nat) (hp : p < 65536) (r : List Nat) :
    be_u16_s (u16_be p ++ r) = .ok (r, p) := by
  have h1 : p / 256 < 256 := by omega
  have hv : p / 256 * 256 + p % 256 = p := by omega
  simp [u16_be, be_u16_s, Nat.mod_eq_of_lt h1, hv]

theorem ipv4_decode_rt (ip : Ipv4Addr) (r : List Nat) :
    Ipv4Addr.decode (ip.octets ++ r) = .ok (r, ip) := by
  cases ip
  rfl

theorem ipv6_decode_rt (ip : Ipv6Addr) (h : ip.wf) (r : List Nat) :
    Ipv6Addr.decode (ip.octets ++ r) = .ok (r, ip) := by
  obtain ⟨l⟩ := ip
  simp only [Ipv6Addr.wf] at h
  simp [Ipv6Addr.decode, h, List.take_append_eq_append_take,
    List.drop_append_eq_append_drop, List.length_append]

theorem auth_fromNat_as_u8 (m : AuthenticationMethod) (h : m.wf) :
    AuthenticationMethod.fromNat m.as_u8 = m := by
  cases m with
  | IanaAssigned v =>
    obtain ⟨h1, h2⟩ := h
    have e0 : v ≠ 0 := by omega
    have e1 : v ≠ 1 := by omega
    have e2 : v ≠ 2 := by omega
    simp [AuthenticationMethod.fromNat, AuthenticationMethod.as_u8, e0, e1, e2, h2]
  | PrivateMethod v =>
    obtain ⟨h1, h2⟩ := h
    have e0 : v ≠ 0 := by omega
    have e1 : v ≠ 1 := by omega
    have e2 : v ≠ 2 := by omega
    have e3 : ¬ (v ≤ 0x7f) := by omega
    simp [AuthenticationMethod.fromNat, AuthenticationMethod.as_u8, e0, e1, e2, e3, h2]
  | None => rfl
  | Gssapi => rfl
  | UsernamePassword => rfl
  | NotAcceptable => rfl

theorem auth_decode_rt (m : AuthenticationMethod) (h : m.wf) (r : List Nat) :
    AuthenticationMethod.decode (m.as_u8 :: r) = .ok (r, m) := by
  simp [AuthenticationMethod.decode, pcontext, be_u8_c, auth_fromNat_as_u8 m h]

theorem status5_fromNat_as_u8 (s : v5.Status) (h : s.wf) :
    v5.Status.fromNat s.as_u8 = s := by
  cases s with
  | Unassigned v =>
    obtain ⟨h1, h2⟩ := h
    have e0 : v ≠ 0 := by omega
    have e1 : v ≠ 1 := by omega
    have e2 : v ≠ 2 := by omega
    have e3 : v ≠ 3 := by omega
    have e4 : v ≠ 4 := by omega
    have e5 : v ≠ 5 := by omega
    have e6 : v ≠ 6 := by omega
    have e7 : v ≠ 7 := by omega
    simp [v5.Status.fromNat, v5.Status.as_u8, e0, e1, e2, e3, e4, e5, e6, e7]
  | Success => rfl
  | GeneralFailure => rfl
  | ConnectionNotAllowed => rfl
  | NetworkUnreachable => rfl
  | HostUnreachalble => rfl
  | ConnectionRefused => rfl
  | TTLExpired => rfl
  | CommandNotSupported => rfl

theorem status5_decode_rt (s : v5.Status) (h : s.wf) (r : List Nat) :
    v5.Status.decode (s.as_u8 :: r) = .ok (r, s) := by
  simp [v5.Status.decode, pcontext, be_u8_s, status5_fromNat_as_u8 s h]

theorem cmd5_decode_rt (c : v5.Command) (r : List Nat) :
    v5.Command.decode (c.as_u8 :: r) = .ok (r, c) := by
  cases c <;> rfl

theorem cmd4_decode_rt (c : v4.Command) (r : List Nat) :
    v4.Command.decode (c.as_u8 :: r) = .ok (r, c) := by
  cases c <;> rfl

theorem status4_decode_rt (s : v4.Status) (r : List Nat) :
    v4.Status.decode (s.as_u8 :: r) = .ok (r, s) := by
  cases s <;> rfl

theorem version_decode_4 (r : List Nat) :
    Version.decode (4 :: r) = .ok (r, Version.Socks4) := rfl

theorem version_decode_5 (r : List Nat) :
    Version.decode (5 :: r) = .ok (r, Version.Socks5) := rfl

theorem addr5_decode_rt (a : v5.AddressType) (h : a.wf) (r : List Nat) :
    v5.AddressType.decode (v5.AddressType.encode_into a [] ++ r) = .ok (r, a) := by
  cases a with
  | IPv4 ip =>
    cases ip
    rfl
  | DomainName n =>
    obtain ⟨hlen, hutf⟩ := h
    simp [v5.AddressType.encode_into, v5.AddressType.decode, pcontext, be_u8_c,
      List.take_append_eq_append_take, List.drop_append_eq_append_drop, hutf]
  | IPv6 ip =>
    simp [v5.AddressType.encode_into, v5.AddressType.decode, pcontext, be_u8_c,
      Ipv6Addr.encode_into, ipv6_decode_rt ip h r]

theorem pcontext_of_ok {α : Type} (s : String) (p : ParserFn α) (i : List Nat)
    (x : List Nat × α) (h : p i = .ok x) : pcontext s p i = .ok x := by
  simp [pcontext, h]

theorem be_u8_c_cons (b : Nat) (r : List Nat) : be_u8_c (b :: r) = .ok (r, b) := rfl

theorem be_u8_s_cons (b : Nat) (r : List Nat) : be_u8_s (b :: r) = .ok (r, b) := rfl

theorem verify5_cons (r : List Nat) :
    verify_version .Socks5 (5 :: r) = .ok (r, .Socks5) := rfl

theorem verify4_cons (r : List Nat) :
    verify_version .Socks4 (4 :: r) = .ok (r, .Socks4) := rfl

theorem addr5_encode_into_append (a : v5.AddressType) (buf : List Nat) :
    v5.AddressType.encode_into a buf = buf ++ v5.AddressType.encode_into a [] := by
  cases a <;>
    simp [v5.AddressType.encode_into, Ipv4Addr.encode_into, Ipv6Addr.encode_into]

theorem addr5_encode_length (a : v5.AddressType) (h : a.wf) :
    (v5.AddressType.encode_into a []).length = a.wireLen := by
  cases a with
  | IPv4 ip =>
    cases ip
    rfl
  | DomainName n => simp [v5.AddressType.encode_into, v5.AddressType.wireLen]; omega
  | IPv6 ip =>
    obtain ⟨l⟩ := ip
    have h2 : l.length = 16 := h
    simp [v5.AddressType.encode_into, v5.AddressType.wireLen, Ipv6Addr.encode_into, h2]

theorem lcg_auth_rt (ms : List AuthenticationMethod) (h : ∀ m ∈ ms, m.wf)
    (r : List Nat) :
    length_count_go AuthenticationMethod.decode ms.length
      (ms.map AuthenticationMethod.as_u8 ++ r) = .ok (r, ms) := by
  induction ms with
  | nil => rfl
  | cons m ms ih =>
    have hm : m.wf := h m (by simp)
    have hms : ∀ x ∈ ms, x.wf := fun x hx => h x (by simp [hx])
    simp only [List.map_cons, List.cons_append, List.length_cons, length_count_go,
      auth_decode_rt m hm, ih hms]

theorem hello_encode_eq (m : v5.Hello) :
    v5.Hello.encode_into m [] =
      [5, m.methods.length] ++ m.methods.map AuthenticationMethod.as_u8 := by
  simp [v5.Hello.encode_into, Version.encode_into, Version.as_u8]

set_option maxRecDepth 4000 in
theorem hello_decode_rt (m : v5.Hello) (h : m.wf) (r : List Nat) :
    v5.Hello.decode (v5.Hello.encode_into m [] ++ r) = .ok (r, m) := by
  obtain ⟨hlen, hwf⟩ := h
  rw [hello_encode_eq]
  refine pcontext_of_ok _ _ _ _ ?_
  simp only [List.cons_append, List.nil_append, verify5_cons, be_u8_c_cons,
    lcg_auth_rt m.methods hwf r]

set_option maxRecDepth 4000 in
theorem helloResponse_decode_rt (m : v5.HelloResponse) (h : m.method.wf) (r : List Nat) :
    v5.HelloResponse.decode (v5.HelloResponse.encode_into m [] ++ r) = .ok (r, m) := by
  show v5.HelloResponse.decode (5 :: m.method.as_u8 :: r) = _
  refine pcontext_of_ok _ _ _ _ ?_
  simp only [verify5_cons, auth_decode_rt m.method h]

theorem v5req_encode_eq (m : v5.Request) :
    v5.Request.encode_into m [] =
      [5, m.command.as_u8, 0] ++ v5.AddressType.encode_into m.addr [] ++ u16_be m.port := by
  simp only [v5.Request.encode_into, Version.encode_into, Version.as_u8,
    v5.Command.encode_into]
  rw [addr5_encode_into_append]
  simp

theorem v5req_decode_rt (m : v5.Request) (h : m.wf) (r : List Nat) :
    v5.Request.decode (v5.Request.encode_into m [] ++ r) = .ok (r, m) := by
  obtain ⟨ha, hp⟩ := h
  rw [v5req_encode_eq]
  refine pcontext_of_ok _ _ _ _ ?_
  have haddr := addr5_decode_rt m.addr ha (u16_be m.port ++ r)
  simp only [List.cons_append, List.nil_append, List.append_assoc, verify5_cons,
    cmd5_decode_rt, be_u8_c_cons, haddr, be_u16_c_rt m.port hp r]

theorem v5resp_encode_eq (m : v5.Response) :
    v5.Response.encode_into m [] =
      [5, m.status.as_u8, 0] ++ v5.AddressType.encode_into m.addr [] ++ u16_be m.port := by
  simp only [v5.Response.encode_into, Version.encode_into, Version.as_u8,
    v5.Status.encode_into]
  rw [addr5_encode_into_append]
  simp

theorem v5resp_decode_rt (m : v5.Response) (h : m.wf) (r : List Nat) :
    v5.Response.decode (v5.Response.encode_into m [] ++ r) = .ok (r, m) := by
  obtain ⟨hs, ha, hp⟩ := h
  rw [v5resp_encode_eq]
  refine pcontext_of_ok _ _ _ _ ?_
  have haddr := addr5_decode_rt m.addr ha (u16_be m.port ++ r)
  simp only [List.cons_append, List.nil_append, List.append_assoc, verify5_cons,
    status5_decode_rt m.status hs, be_u8_s_cons, haddr, be_u16_s_rt m.port hp r]

theorem v4resp_encode_eq (m : v4.Response) :
    v4.Response.encode_into m [] =
      [0, m.status.as_u8] ++ u16_be m.port ++ m.addr.octets := by
  simp [v4.Response.encode_into, v4.Status.encode_into, Ipv4Addr.encode_into]

theorem v4resp_decode_rt (m : v4.Response) (h : m.wf) (r : List Nat) :
    v4.Response.decode (v4.Response.encode_into m [] ++ r) = .ok (r, m) := by
  rw [v4resp_encode_eq]
  refine pcontext_of_ok _ _ _ _ ?_
  simp only [List.cons_append, List.nil_append, List.append_assoc, be_u8_s_cons,
    if_true, eq_self_iff_true, status4_decode_rt m.status, be_u16_s_rt m.port h (m.addr.octets ++ r),
    ipv4_decode_rt m.addr r]

theorem utf8Valid_of_ascii (l : List Nat) (h : ∀ b ∈ l, asciiNz b = true) :
    utf8Valid l = true := by
  induction l with
  | nil => rfl
  | cons b t ih =>
    have hb : b < 0x80 := by
      have := h b (by simp)
      simp [asciiNz] at this
      exact this.1
    have ht : ∀ x ∈ t, asciiNz x = true := fun x hx => h x (by simp [hx])
    show utf8Go 0 0 0 (b :: t) = true
    rw [utf8Go, if_pos hb]
    exact ih ht

theorem takeWhile_ascii_nul (l rest : List Nat) (h : ∀ b ∈ l, asciiNz b = true) :
    (l ++ 0 :: rest).takeWhile asciiNz = l ∧
    (l ++ 0 :: rest).dropWhile asciiNz = 0 :: rest := by
  induction l with
  | nil => simp [List.takeWhile, List.dropWhile, asciiNz]
  | cons b t ih =>
    have hb : asciiNz b = true := h b (by simp)
    have ht : ∀ x ∈ t, asciiNz x = true := fun x hx => h x (by simp [hx])
    obtain ⟨ih1, ih2⟩ := ih ht
    simp [List.takeWhile_cons, List.dropWhile_cons, hb, ih1, ih2]

theorem ds_some (l : List Nat) (hne : l ≠ []) (hall : ∀ b ∈ l, asciiNz b = true)
    (rest : List Nat) :
    v4.decode_string (l ++ 0 :: rest) = .ok (rest, some l) := by
  obtain ⟨h1, h2⟩ := takeWhile_ascii_nul l rest hall
  refine pcontext_of_ok _ _ _ _ ?_
  simp only [h1, h2]
  simp [hne, utf8Valid_of_ascii l hall]

theorem ds_nul (rest : List Nat) : v4.decode_string (0 :: rest) = .ok (rest, none) := by
  refine pcontext_of_ok _ _ _ _ ?_
  simp [List.takeWhile_cons, List.dropWhile_cons, asciiNz]

theorem ds_nil :
    v4.decode_string [] = .error (.error ⟨[.ekind .tagKind, .ectx "string"]⟩) := rfl

theorem popt_ds_nil : popt v4.decode_string [] = .ok ([], none) := rfl

theorem popt_ds_some (l : List Nat) (hne : l ≠ []) (hall : ∀ b ∈ l, asciiNz b = true)
    (rest : List Nat) :
    popt v4.decode_string (l ++ 0 :: rest) = .ok (rest, some (some l)) := by
  simp [popt, ds_some l hne hall rest]

theorem popt_ds_nul (rest : List Nat) :
    popt v4.decode_string (0 :: rest) = .ok (rest, some none) := by
  simp [popt, ds_nul rest]

/-- The decoded form of a written secret: the empty write reads back as
`none`. -/
theorem ds_sec (sec : Option (List Nat))
    (h : match sec with
         | none => True
         | some s => s ≠ [] ∧ ∀ b ∈ s, asciiNz b = true)
    (rest : List Nat) :
    v4.decode_string (secNats sec ++ 0 :: rest) = .ok (rest, sec) := by
  cases sec with
  | none => exact ds_nul rest
  | some s =>
    obtain ⟨hne, hall⟩ := h
    exact ds_some s hne hall rest

theorem v4req_encode_eq_ipv4 (c : v4.Command) (ip : Ipv4Addr) (p : Nat)
    (sec : Option (List Nat)) :
    v4.Request.encode_into ⟨c, .IPv4 ip, p, sec⟩ [] =
      [4, c.as_u8] ++ u16_be p ++ ip.octets ++ secNats sec ++ [0] := by
  cases sec <;>
    simp [v4.Request.encode_into, Version.encode_into, Version.as_u8,
      v4.Command.encode_into, v4.encode_string, secNats]

theorem v4req_encode_eq_dom (c : v4.Command) (n : List Nat) (p : Nat)
    (sec : Option (List Nat)) :
    v4.Request.encode_into ⟨c, .DomainName n, p, sec⟩ [] =
      [4, c.as_u8] ++ u16_be p ++ [0, 0, 0, 1] ++ secNats sec ++ [0] ++ n ++ [0] := by
  cases sec <;>
    simp [v4.Request.encode_into, Version.encode_into, Version.as_u8,
      v4.Command.encode_into, v4.encode_string, secNats]

theorem v4req_decode_rt (m : v4.Request) (h : m.wf) :
    v4.Request.decode (v4.Request.encode_into m []) = .ok ([], m) := by
  obtain ⟨c, addr, p, sec⟩ := m
  obtain ⟨hp, haddr, hsec⟩ := h
  cases addr with
  | IPv4 ip =>
    obtain ⟨o1, o2, o3, o4⟩ := ip
    rw [v4req_encode_eq_ipv4]
    have hds := ds_sec sec hsec []
    simp only [v4.Request.decode, pcontext, Ipv4Addr.octets, List.cons_append,
      List.nil_append, List.append_assoc, verify4_cons, cmd4_decode_rt,
      be_u16_c_rt p hp (o1 :: o2 :: o3 :: o4 :: (secNats sec ++ [0])), hds, popt_ds_nil]
  | DomainName n =>
    obtain ⟨hne, hall⟩ := haddr
    rw [v4req_encode_eq_dom]
    have hds := ds_sec sec hsec (n ++ [0])
    have hname := popt_ds_some n hne hall []
    simp only [v4.Request.decode, pcontext, List.cons_append, List.nil_append,
      List.append_assoc, verify4_cons, cmd4_decode_rt,
      be_u16_c_rt p hp (0 :: 0 :: 0 :: 1 :: (secNats sec ++ 0 :: (n ++ [0]))),
      hds, hname]

theorem v4req_encode_length (m : v4.Request) :
    (v4.Request.encode_into m []).length = m.wireLen := by
  obtain ⟨c, addr, p, sec⟩ := m
  cases addr with
  | IPv4 ip =>
    rw [v4req_encode_eq_ipv4]
    simp [v4.Request.wireLen, u16_be, Ipv4Addr.octets]
    omega
  | DomainName n =>
    rw [v4req_encode_eq_dom]
    simp [v4.Request.wireLen, u16_be]
    omega

theorem hello_encode_length (m : v5.Hello) :
    (v5.Hello.encode_into m []).length = 2 + m.methods.length := by
  rw [hello_encode_eq]
  simp
  omega

theorem helloResponse_encode_length (m : v5.HelloResponse) :
    (v5.HelloResponse.encode_into m []).length = 2 := rfl

theorem v5req_encode_length (m : v5.Request) (h : m.addr.wf) :
    (v5.Request.encode_into m []).length = 3 + m.addr.wireLen + 2 := by
  rw [v5req_encode_eq]
  simp [addr5_encode_length m.addr h, u16_be]
  omega

theorem v5resp_encode_length (m : v5.Response) (h : m.addr.wf) :
    (v5.Response.encode_into m []).length = 3 + m.addr.wireLen + 2 := by
  rw [v5resp_encode_eq]
  simp [addr5_encode_length m.addr h, u16_be]
  omega

theorem v4resp_encode_length (m : v4.Response) :
    (v4.Response.encode_into m []).length = 8 := by
  rw [v4resp_encode_eq]
  simp [u16_be, Ipv4Addr.octets]

theorem be_u16_c_fin (p : Nat) (hp : p < 65536) : be_u16_c (u16_be p) = .ok ([], p) := by
  have h := be_u16_c_rt p hp []
  rwa [List.append_nil] at h

theorem be_u16_s_fin (p : Nat) (hp : p < 65536) : be_u16_s (u16_be p) = .ok ([], p) := by
  have h := be_u16_s_rt p hp []
  rwa [List.append_nil] at h

/-! ### Claim theorems -/

/-- C3: `Version::decode` maps a first byte of 4 to `Socks4`, a first byte of
5 to `Socks5`, and fails on any other first byte. -/
theorem C3_version_decode (b : Nat) (rest : List Nat) (hb : b < 256) :
    Version.decode (4 :: rest) = .ok (rest, Version.Socks4) ∧
    Version.decode (5 :: rest) = .ok (rest, Version.Socks5) ∧
    (b ≠ 4 → b ≠ 5 →
      Version.decode (b :: rest) =
        .error (.error ⟨[.ekind .verify, .ectx "SocksVersion"]⟩)) := by
  refine ⟨rfl, rfl, fun h4 h5 => ?_⟩
  simp [Version.decode, pcontext, be_u8_s, h4, h5, mkNomError, NomError.addCtx]

/-- Witness for C3 at the concrete byte 7. -/
theorem C3_version_decode_witness :
    Version.decode [4] = .ok ([], Version.Socks4) ∧
    Version.decode [5] = .ok ([], Version.Socks5) ∧
    (7 ≠ 4 → 7 ≠ 5 →
      Version.decode [7] =
        .error (.error ⟨[.ekind .verify, .ectx "SocksVersion"]⟩)) :=
  C3_version_decode 7 [] (by decide)

/-- C7: the `AuthenticationMethod` byte mapping is total and a wire
bijection: every byte below 256 decodes (never fails) to the variant given by
`From<u8>`, and re-encoding that variant yields the same byte again. -/
theorem C7_auth_method_bijection (b : Nat) (hb : b < 256) :
    AuthenticationMethod.decode [b] = .ok ([], AuthenticationMethod.fromNat b) ∧
    AuthenticationMethod.encode_into (AuthenticationMethod.fromNat b) [] = [b] := by
  constructor
  · rfl
  · simp only [AuthenticationMethod.encode_into, AuthenticationMethod.fromNat,
      List.nil_append]
    split_ifs with h0 h1 h2 h3 h4 <;>
      simp_all [AuthenticationMethod.as_u8] <;> omega

/-- Witness for C7 at the concrete byte 0x42. -/
theorem C7_auth_method_bijection_witness :
    AuthenticationMethod.decode [66] = .ok ([], AuthenticationMethod.fromNat 66) ∧
    AuthenticationMethod.encode_into (AuthenticationMethod.fromNat 66) [] = [66] :=
  C7_auth_method_bijection 66 (by decide)

/-- C9: converting a `ConnectionResponse` into a v4 `Response` keeps an IPv4
connected address, replaces any non-IPv4 connected address by `0.0.0.0`, maps
v5 `Success` to v4 `Success` and every other v5 status to `Rejected`, and
carries the port over. -/
theorem C9_v4_response_conversion (cr : ConnectionResponse) :
    (∀ ip, cr.connected_to.addr = .IPv4 ip →
      (v4.Response.fromConnectionResponse cr).addr = ip) ∧
    ((∀ ip, cr.connected_to.addr ≠ .IPv4 ip) →
      (v4.Response.fromConnectionResponse cr).addr = ⟨0, 0, 0, 0⟩) ∧
    (cr.status = .Success →
      (v4.Response.fromConnectionResponse cr).status = .Success) ∧
    (cr.status ≠ .Success →
      (v4.Response.fromConnectionResponse cr).status = .Rejected) ∧
    (v4.Response.fromConnectionResponse cr).port = cr.connected_to.port := by
  obtain ⟨⟨addr, port⟩, status⟩ := cr
  refine ⟨?_, ?_, ?_, ?_, rfl⟩
  · intro ip hip
    simp only at hip
    subst hip
    rfl
  · intro hnot
    cases addr with
    | IPv4 ip => exact absurd rfl (hnot ip)
    | DomainName n => rfl
    | IPv6 ip => rfl
  · intro hs
    simp only at hs
    subst hs
    rfl
  · intro hs
    cases status <;> first | exact absurd rfl hs | rfl

/-- Witness for C9: a non-IPv4 destination with a failure status. -/
theorem C9_v4_response_conversion_witness :
    (v4.Response.fromConnectionResponse
      ⟨⟨.DomainName [97], 80⟩, .GeneralFailure⟩).addr = ⟨0, 0, 0, 0⟩ ∧
    (v4.Response.fromConnectionResponse
      ⟨⟨.DomainName [97], 80⟩, .GeneralFailure⟩).status = .Rejected :=
  ⟨(C9_v4_response_conversion ⟨⟨.DomainName [97], 80⟩, .GeneralFailure⟩).2.1
      (fun ip h => by cases h),
   (C9_v4_response_conversion ⟨⟨.DomainName [97], 80⟩, .GeneralFailure⟩).2.2.2.1
      (by intro h; cases h)⟩

/-- C5: round trip for every message type: decoding the bytes produced by
`encode_into` on a wellformed message succeeds, returns the same message,
leaves an empty remainder, and the encoded length matches the layout table
(v5 Hello `2+N`, v5 HelloResponse `2`, v5 Request/Response
`3 + address + 2`, v4 Request `9 + userid + optional domain suffix`,
v4 Response `8`). -/
theorem C5_roundtrip :
    (∀ m : v5.Hello, m.wf →
      v5.Hello.decode (v5.Hello.encode_into m []) = .ok ([], m) ∧
      (v5.Hello.encode_into m []).length = 2 + m.methods.length) ∧
    (∀ m : v5.HelloResponse, m.method.wf →
      v5.HelloResponse.decode (v5.HelloResponse.encode_into m []) = .ok ([], m) ∧
      (v5.HelloResponse.encode_into m []).length = 2) ∧
    (∀ m : v5.Request, m.wf →
      v5.Request.decode (v5.Request.encode_into m []) = .ok ([], m) ∧
      (v5.Request.encode_into m []).length = 3 + m.addr.wireLen + 2) ∧
    (∀ m : v5.Response, m.wf →
      v5.Response.decode (v5.Response.encode_into m []) = .ok ([], m) ∧
      (v5.Response.encode_into m []).length = 3 + m.addr.wireLen + 2) ∧
    (∀ m : v4.Request, m.wf →
      v4.Request.decode (v4.Request.encode_into m []) = .ok ([], m) ∧
      (v4.Request.encode_into m []).length = m.wireLen) ∧
    (∀ m : v4.Response, m.wf →
      v4.Response.decode (v4.Response.encode_into m []) = .ok ([], m) ∧
      (v4.Response.encode_into m []).length = 8) := by
  refine ⟨fun m h => ⟨?_, hello_encode_length m⟩,
    fun m h => ⟨?_, helloResponse_encode_length m⟩,
    fun m h => ⟨?_, v5req_encode_length m h.1⟩,
    fun m h => ⟨?_, v5resp_encode_length m h.2.1⟩,
    fun m h => ⟨v4req_decode_rt m h, v4req_encode_length m⟩,
    fun m h => ⟨?_, v4resp_encode_length m⟩⟩
  · have hr := hello_decode_rt m h []
    rwa [List.append_nil] at hr
  · have hr := helloResponse_decode_rt m h []
    rwa [List.append_nil] at hr
  · have hr := v5req_decode_rt m h []
    rwa [List.append_nil] at hr
  · have hr := v5resp_decode_rt m h []
    rwa [List.append_nil] at hr
  · have hr := v4resp_decode_rt m h []
    rwa [List.append_nil] at hr

/-- Witness for C5, one concrete message per type. -/
theorem C5_roundtrip_witness :
    (v5.Hello.decode
        (v5.Hello.encode_into ⟨[.None, .UsernamePassword]⟩ []) =
      .ok ([], ⟨[.None, .UsernamePassword]⟩) ∧
      (v5.Hello.encode_into (⟨[.None, .UsernamePassword]⟩ : v5.Hello) []).length =
        2 + ([AuthenticationMethod.None, .UsernamePassword] : List _).length) ∧
    (v5.HelloResponse.decode (v5.HelloResponse.encode_into ⟨.None⟩ []) =
      .ok ([], ⟨.None⟩) ∧
      (v5.HelloResponse.encode_into (⟨.None⟩ : v5.HelloResponse) []).length = 2) ∧
    (v5.Request.decode
        (v5.Request.encode_into ⟨.Connect, .DomainName [97, 98], 80⟩ []) =
      .ok ([], ⟨.Connect, .DomainName [97, 98], 80⟩) ∧
      (v5.Request.encode_into (⟨.Connect, .DomainName [97, 98], 80⟩ : v5.Request) []).length =
        3 + (v5.AddressType.DomainName [97, 98]).wireLen + 2) ∧
    (v5.Response.decode
        (v5.Response.encode_into ⟨.Success, .IPv4 ⟨127, 0, 0, 1⟩, 80⟩ []) =
      .ok ([], ⟨.Success, .IPv4 ⟨127, 0, 0, 1⟩, 80⟩) ∧
      (v5.Response.encode_into
        (⟨.Success, .IPv4 ⟨127, 0, 0, 1⟩, 80⟩ : v5.Response) []).length =
        3 + (v5.AddressType.IPv4 ⟨127, 0, 0, 1⟩).wireLen + 2) ∧
    (v4.Request.decode
        (v4.Request.encode_into ⟨.Connect, .DomainName [97, 98], 80, some [117]⟩ []) =
      .ok ([], ⟨.Connect, .DomainName [97, 98], 80, some [117]⟩) ∧
      (v4.Request.encode_into
        (⟨.Connect, .DomainName [97, 98], 80, some [117]⟩ : v4.Request) []).length =
        (⟨.Connect, .DomainName [97, 98], 80, some [117]⟩ : v4.Request).wireLen) ∧
    (v4.Response.decode
        (v4.Response.encode_into ⟨.Success, ⟨1, 2, 3, 4⟩, 80⟩ []) =
      .ok ([], ⟨.Success, ⟨1, 2, 3, 4⟩, 80⟩) ∧
      (v4.Response.encode_into (⟨.Success, ⟨1, 2, 3, 4⟩, 80⟩ : v4.Response) []).length = 8) :=
  ⟨C5_roundtrip.1 ⟨[.None, .UsernamePassword]⟩
      ⟨by decide, by intro x hx; fin_cases hx <;> trivial⟩,
   C5_roundtrip.2.1 ⟨.None⟩ trivial,
   C5_roundtrip.2.2.1 ⟨.Connect, .DomainName [97, 98], 80⟩
      ⟨⟨by decide, by decide⟩, by decide⟩,
   C5_roundtrip.2.2.2.1 ⟨.Success, .IPv4 ⟨127, 0, 0, 1⟩, 80⟩
      ⟨trivial, trivial, by decide⟩,
   C5_roundtrip.2.2.2.2.1 ⟨.Connect, .DomainName [97, 98], 80, some [117]⟩
      ⟨by decide, ⟨by decide, by decide⟩, ⟨by decide, by decide⟩⟩,
   C5_roundtrip.2.2.2.2.2 ⟨.Success, ⟨1, 2, 3, 4⟩, 80⟩ (show (80 : Nat) < 65536 by decide)⟩

/-- C10: the reserved third byte of a v5 Request and of a v5 Response is read
and discarded: any byte value there decodes successfully to the same message
as the canonical zero, so inputs differing only in that byte decode
equally. -/
theorem C10_reserved_byte_ignored (cmd : v5.Command) (st : v5.Status)
    (a : v5.AddressType) (p z : Nat) (ha : a.wf) (hs : st.wf)
    (hp : p < 65536) (hz : z < 256) :
    v5.Request.decode
        ([5, cmd.as_u8, z] ++ v5.AddressType.encode_into a [] ++ u16_be p) =
      .ok ([], ⟨cmd, a, p⟩) ∧
    v5.Response.decode
        ([5, st.as_u8, z] ++ v5.AddressType.encode_into a [] ++ u16_be p) =
      .ok ([], ⟨st, a, p⟩) := by
  constructor
  · refine pcontext_of_ok _ _ _ _ ?_
    have haddr := addr5_decode_rt a ha (u16_be p)
    simp only [List.cons_append, List.nil_append, List.append_assoc, verify5_cons,
      cmd5_decode_rt, be_u8_c_cons, haddr, be_u16_c_fin p hp]
  · refine pcontext_of_ok _ _ _ _ ?_
    have haddr := addr5_decode_rt a ha (u16_be p)
    simp only [List.cons_append, List.nil_append, List.append_assoc, verify5_cons,
      status5_decode_rt st hs, be_u8_s_cons, haddr, be_u16_s_fin p hp]

/-- Witness for C10 with reserved byte 0x7e. -/
theorem C10_reserved_byte_ignored_witness :
    v5.Request.decode
        ([5, v5.Command.Connect.as_u8, 126] ++
          v5.AddressType.encode_into (.IPv4 ⟨127, 0, 0, 1⟩) [] ++ u16_be 80) =
      .ok ([], ⟨.Connect, .IPv4 ⟨127, 0, 0, 1⟩, 80⟩) ∧
    v5.Response.decode
        ([5, v5.Status.Success.as_u8, 126] ++
          v5.AddressType.encode_into (.IPv4 ⟨127, 0, 0, 1⟩) [] ++ u16_be 80) =
      .ok ([], ⟨.Success, .IPv4 ⟨127, 0, 0, 1⟩, 80⟩) :=
  C10_reserved_byte_ignored .Connect .Success (.IPv4 ⟨127, 0, 0, 1⟩) 80 126
    trivial trivial (by decide) (by decide)

/-- C8: v5 `AddressType::decode` tag dispatch: tag bytes 1, 3 and 4 decode
structurally (succeeding whenever the payload is long enough and, for domain
names, valid UTF-8); any other tag byte is a fatal failure whose context is
`Invalid address type`. -/
theorem C8_address_type_tags :
    (∀ (b : Nat) (rest : List Nat), b < 256 → b ≠ 1 → b ≠ 3 → b ≠ 4 →
      v5.AddressType.decode (b :: rest) =
        .error (.failure ⟨[.ekind .noneOf, .ectx "Invalid address type"]⟩)) ∧
    (∀ (o1 o2 o3 o4 : Nat) (r : List Nat),
      v5.AddressType.decode (1 :: o1 :: o2 :: o3 :: o4 :: r) =
        .ok (r, .IPv4 ⟨o1, o2, o3, o4⟩)) ∧
    (∀ (d r : List Nat), utf8Valid d = true →
      v5.AddressType.decode (3 :: d.length :: (d ++ r)) = .ok (r, .DomainName d)) ∧
    (∀ (payload r : List Nat), payload.length = 16 →
      v5.AddressType.decode (4 :: (payload ++ r)) = .ok (r, .IPv6 ⟨payload⟩)) := by
  refine ⟨fun b rest hb h1 h3 h4 => ?_, fun o1 o2 o3 o4 r => rfl,
    fun d r hutf => ?_, fun payload r hlen => ?_⟩
  · simp [v5.AddressType.decode, pcontext, be_u8_c_cons, h1, h3, h4, mkNomError,
      NomError.addCtx]
  · simp [v5.AddressType.decode, pcontext, be_u8_c_cons, hutf,
      List.take_append_eq_append_take, List.drop_append_eq_append_drop]
  · simp [v5.AddressType.decode, pcontext, be_u8_c_cons, Ipv6Addr.decode,
      List.take_append_eq_append_take, List.drop_append_eq_append_drop, hlen]

/-- Witness for C8: bad tag 9, an IPv4 payload, a one-byte domain name and a
16-byte IPv6 payload. -/
theorem C8_address_type_tags_witness :
    v5.AddressType.decode [9, 1, 2] =
      .error (.failure ⟨[.ekind .noneOf, .ectx "Invalid address type"]⟩) ∧
    v5.AddressType.decode [1, 127, 0, 0, 1] = .ok ([], .IPv4 ⟨127, 0, 0, 1⟩) ∧
    v5.AddressType.decode [3, 1, 97] = .ok ([], .DomainName [97]) ∧
    v5.AddressType.decode
        [4, 0, 0, 0, 0, 0, 0, 0, 0, 0, 0, 0, 0, 0, 0, 0, 1] =
      .ok ([], .IPv6 ⟨[0, 0, 0, 0, 0, 0, 0, 0, 0, 0, 0, 0, 0, 0, 0, 1]⟩) :=
  ⟨C8_address_type_tags.1 9 [1, 2] (by decide) (by decide) (by decide) (by decide),
   C8_address_type_tags.2.1 127 0 0 1 [],
   C8_address_type_tags.2.2.1 [97] [] (by decide),
   C8_address_type_tags.2.2.2 [0, 0, 0, 0, 0, 0, 0, 0, 0, 0, 0, 0, 0, 0, 0, 1] []
     (by decide)⟩

/-- C6: v5 server method negotiation. For every buffer whose Hello decodes,
the selected method is `None` exactly when the offered list contains `None`
and `NotAcceptable` otherwise; the hello response carrying that selection is
the first write in every case; and when the selection is `NotAcceptable` the
handler stops right after that write with the unsupported-methods error, for
every request byte stream and every resolver (no Request is read or
decoded). -/
theorem C6_method_negotiation (buffer rb rem : List Nat) (hello : v5.Hello)
    (hdec : v5.Hello.decode buffer = .ok (rem, hello))
    (hr : ConnectionRequest → Except Unit Destination) :
    ((Server.handle_client_v5 buffer rb hr).1.head? =
      some (v5.HelloResponse.encode_into
        ⟨if AuthenticationMethod.None ∈ hello.methods then .None
          else .NotAcceptable⟩ [])) ∧
    (AuthenticationMethod.None ∉ hello.methods →
      ∀ (rb2 : List Nat) (hr2 : ConnectionRequest → Except Unit Destination),
        Server.handle_client_v5 buffer rb2 hr2 =
          ([v5.HelloResponse.encode_into ⟨.NotAcceptable⟩ []],
           .error "Client requested only unsupported authentication methods")) := by
  constructor
  · by_cases hmem : AuthenticationMethod.None ∈ hello.methods
    · simp only [Server.handle_client_v5, hdec, hmem, if_true, if_pos]
      cases hreq : v5.Request.decode rb with
      | error e => simp [hreq]
      | ok x =>
        obtain ⟨rest, req⟩ := x
        cases hres : hr ⟨⟨req.addr, req.port⟩⟩ with
        | ok d => simp [hreq, hres]
        | error e => simp [hreq, hres]
    · simp [Server.handle_client_v5, hdec, hmem]
  · intro hmem rb2 hr2
    simp [Server.handle_client_v5, hdec, hmem]

/-- Witness for C6: a Hello offering only `UsernamePassword` aborts with the
`NotAcceptable` hello response written. -/
theorem C6_method_negotiation_witness :
    ((Server.handle_client_v5 [5, 1, 2] [] (fun _ => .error ())).1.head? =
      some (v5.HelloResponse.encode_into
        ⟨if AuthenticationMethod.None ∈ [AuthenticationMethod.UsernamePassword] then .None
          else .NotAcceptable⟩ [])) ∧
    (AuthenticationMethod.None ∉ [AuthenticationMethod.UsernamePassword] →
      ∀ (rb2 : List Nat) (hr2 : ConnectionRequest → Except Unit Destination),
        Server.handle_client_v5 [5, 1, 2] rb2 hr2 =
          ([v5.HelloResponse.encode_into ⟨.NotAcceptable⟩ []],
           .error "Client requested only unsupported authentication methods")) :=
  C6_method_negotiation [5, 1, 2] [] [] ⟨[.UsernamePassword]⟩ rfl (fun _ => .error ())

/-- C1 (failing input): the spec scenario. The client asks to CONNECT
`example.com:80`; the stream then yields the hello response `05 00` (server
selects `None`) and the success response `05 00 00 01 5D B8 D8 22 00 50`.
`connect_v5` does send the Hello `05 01 00` offering only `None`, but because
`client.rs` never clears its buffer before `read_buf` (unlike the v4 path),
the hello-response decode is applied to the first bytes of the buffer — the
just-sent Hello `05 01` — which decodes as a hello response selecting
`Gssapi`, so the call fails with the unsupported-method error instead of
returning the tunnelled stream. -/
theorem C1_connect_v5_buffer_bug :
    Client.connect_v5 (.DomainName [101, 120, 97, 109, 112, 108, 101, 46, 99, 111, 109])
        80 [5, 0] [5, 0, 0, 1, 93, 184, 216, 34, 0, 80] =
      ⟨[[5, 1, 0]], .error "Does not support any authentication method"⟩ := rfl

/-- C2 (counterexample): the claim says a trailing domain name is parsed
exactly when the ip4 field lies in `0.0.0.1`..`0.0.0.255`; here the ip4 field
is `127.0.0.1` — outside the sentinel range — followed by the NUL-terminated
domain `a`, and the decoder still consumes the suffix and returns
`DomainName "a"` rather than `IPv4 127.0.0.1` with the suffix left over. -/
theorem C2_counterexample :
    v4.Request.decode [4, 1, 0, 80, 127, 0, 0, 1, 0, 97, 0] =
      .ok ([], ⟨.Connect, .DomainName [97], 80, none⟩) := rfl

/-- C2 (amended): v4 `Request::decode` parses the optional trailing
NUL-terminated string regardless of the ip4 value. After the fixed prefix
(version 4, command, port, four ip bytes, user id, NUL): a following
non-empty ASCII NUL-terminated string always becomes `DomainName` (the ip4
bytes are discarded); a following bare NUL is always the fatal
`Got empty domain name` failure; and when the input ends there, the address
is `IPv4(ip4)`. The sentinel range plays no role in decoding. -/
theorem C2_v4_domain_suffix (c : v4.Command) (p : Nat) (hp : p < 65536)
    (ip : Ipv4Addr) (sec : Option (List Nat))
    (hsec : match sec with
            | none => True
            | some s => s ≠ [] ∧ ∀ b ∈ s, asciiNz b = true) :
    (∀ n : List Nat, n ≠ [] → (∀ b ∈ n, asciiNz b = true) →
      v4.Request.decode
          ([4, c.as_u8] ++ u16_be p ++ ip.octets ++ secNats sec ++ [0] ++ n ++ [0]) =
        .ok ([], ⟨c, .DomainName n, p, sec⟩)) ∧
    (v4.Request.decode
        ([4, c.as_u8] ++ u16_be p ++ ip.octets ++ secNats sec ++ [0] ++ [0]) =
      .error (.failure ⟨[.ekind .verify, .ectx "Got empty domain name"]⟩)) ∧
    (v4.Request.decode ([4, c.as_u8] ++ u16_be p ++ ip.octets ++ secNats sec ++ [0]) =
      .ok ([], ⟨c, .IPv4 ip, p, sec⟩)) := by
  obtain ⟨o1, o2, o3, o4⟩ := ip
  refine ⟨fun n hne hall => ?_, ?_, ?_⟩
  · have hds := ds_sec sec hsec (n ++ [0])
    have hname := popt_ds_some n hne hall []
    simp only [v4.Request.decode, pcontext, Ipv4Addr.octets, List.cons_append,
      List.nil_append, List.append_assoc, verify4_cons, cmd4_decode_rt,
      be_u16_c_rt p hp (o1 :: o2 :: o3 :: o4 :: (secNats sec ++ (0 :: (n ++ [0])))),
      hds, hname]
  · have hds := ds_sec sec hsec [0]
    have hname := popt_ds_nul ([] : List Nat)
    simp only [v4.Request.decode, pcontext, Ipv4Addr.octets, List.cons_append,
      List.nil_append, List.append_assoc, verify4_cons, cmd4_decode_rt,
      be_u16_c_rt p hp (o1 :: o2 :: o3 :: o4 :: (secNats sec ++ (0 :: [0]))),
      hds, hname, mkNomError, NomError.addCtx]
  · have hds := ds_sec sec hsec []
    simp only [v4.Request.decode, pcontext, Ipv4Addr.octets, List.cons_append,
      List.nil_append, List.append_assoc, verify4_cons, cmd4_decode_rt,
      be_u16_c_rt p hp (o1 :: o2 :: o3 :: o4 :: (secNats sec ++ [0])),
      hds, popt_ds_nil]

/-- Witness for the amended C2 at ip `127.0.0.1`, empty user id, domain
`a`. -/
theorem C2_v4_domain_suffix_witness :
    (∀ n : List Nat, n ≠ [] → (∀ b ∈ n, asciiNz b = true) →
      v4.Request.decode
          ([4, v4.Command.Connect.as_u8] ++ u16_be 80 ++
            (Ipv4Addr.mk 127 0 0 1).octets ++ secNats none ++ [0] ++ n ++ [0]) =
        .ok ([], ⟨.Connect, .DomainName n, 80, none⟩)) ∧
    (v4.Request.decode
        ([4, v4.Command.Connect.as_u8] ++ u16_be 80 ++
          (Ipv4Addr.mk 127 0 0 1).octets ++ secNats none ++ [0] ++ [0]) =
      .error (.failure ⟨[.ekind .verify, .ectx "Got empty domain name"]⟩)) ∧
    (v4.Request.decode
        ([4, v4.Command.Connect.as_u8] ++ u16_be 80 ++
          (Ipv4Addr.mk 127 0 0 1).octets ++ secNats none ++ [0]) =
      .ok ([], ⟨.Connect, .IPv4 ⟨127, 0, 0, 1⟩, 80, none⟩)) :=
  C2_v4_domain_suffix .Connect 80 (by decide) ⟨127, 0, 0, 1⟩ none trivial

theorem truncRes_pcontext {α : Type} (s : String) (p : ParserFn α) (i : List Nat)
    (h : truncRes (p i)) : truncRes (pcontext s p i) := by
  rcases h with ⟨n, hn⟩ | ⟨es, he⟩
  · exact Or.inl ⟨n, by simp [pcontext, hn]⟩
  · exact Or.inr ⟨es ++ [.ectx s], by simp [pcontext, he, NomError.addCtx]⟩

theorem addr5_decode_tag3_short (len : Nat) (X : List Nat) (h : X.length < len) :
    v5.AddressType.decode (3 :: len :: X) =
      .error (.incomplete (some (len - X.length))) := by
  simp only [v5.AddressType.decode, pcontext, be_u8_c_cons]
  norm_num
  simp only [pcontext, be_u8_c_cons, if_pos h]

theorem addr5_decode_tag4_short (X : List Nat) (h : X.length < 16) :
    v5.AddressType.decode (4 :: X) =
      .error (.incomplete (some (16 - X.length))) := by
  simp only [v5.AddressType.decode, pcontext, be_u8_c_cons]
  norm_num
  simp only [Ipv6Addr.decode, if_pos h]

theorem addr5_decode_trunc (a : v5.AddressType) (hwf : a.wf) (j : Nat)
    (hj : j < (v5.AddressType.encode_into a []).length) :
    truncRes (v5.AddressType.decode ((v5.AddressType.encode_into a []).take j)) := by
  cases a with
  | IPv4 ip =>
    obtain ⟨o1, o2, o3, o4⟩ := ip
    have hj5 : j < 5 := by
      simpa [v5.AddressType.encode_into, Ipv4Addr.encode_into, Ipv4Addr.octets] using hj
    interval_cases j <;>
      first
        | exact Or.inl ⟨_, rfl⟩
        | exact Or.inr ⟨_, rfl⟩
  | DomainName n =>
    have hjl : j < 2 + n.length := by
      simp [v5.AddressType.encode_into] at hj
      omega
    match j, hjl with
    | 0, _ => exact Or.inr ⟨_, rfl⟩
    | 1, _ =>
      have h1 : (v5.AddressType.encode_into (.DomainName n) []).take 1 = [3] := by
        simp [v5.AddressType.encode_into]
      rw [h1]
      exact Or.inr ⟨_, rfl⟩
    | k + 2, hjl =>
      have hk : k < n.length := by omega
      have h2 : (v5.AddressType.encode_into (.DomainName n) []).take (k + 2) =
          3 :: n.length :: n.take k := by
        simp [v5.AddressType.encode_into, List.take_append_eq_append_take,
          List.take_succ_cons]
      rw [h2]
      have hlt : (n.take k).length < n.length := by
        simp [List.length_take]
        omega
      exact Or.inl ⟨_, addr5_decode_tag3_short n.length (n.take k) hlt⟩
  | IPv6 ip =>
    obtain ⟨l⟩ := ip
    have hl : l.length = 16 := hwf
    have hjl : j < 17 := by
      simp [v5.AddressType.encode_into, Ipv6Addr.encode_into, hl] at hj
      omega
    match j, hjl with
    | 0, _ => exact Or.inr ⟨_, rfl⟩
    | k + 1, hjl =>
      have hk : k < 16 := by omega
      have h2 : (v5.AddressType.encode_into (.IPv6 ⟨l⟩) []).take (k + 1) =
          4 :: l.take k := by
        simp [v5.AddressType.encode_into, Ipv6Addr.encode_into, List.take_succ_cons]
      rw [h2]
      have hlt : (l.take k).length < 16 := by
        simp [List.length_take]
        omega
      exact Or.inl ⟨_, addr5_decode_tag4_short (l.take k) hlt⟩

theorem v5req_decode_cons (c : v5.Command) (z : Nat) (X : List Nat) :
    v5.Request.decode (5 :: c.as_u8 :: z :: X) =
      pcontext "Request" (fun i =>
        match v5.AddressType.decode i with
        | .error e => .error e
        | .ok (i2, addr) =>
          match be_u16_c i2 with
          | .error e => .error e
          | .ok (rest, port) => .ok (rest, ⟨c, addr, port⟩)) X := by
  cases c <;> rfl

theorem v5req_decode_trunc (m : v5.Request) (h : m.wf) (k : Nat)
    (hk : k < (v5.Request.encode_into m []).length) :
    truncRes (v5.Request.decode ((v5.Request.encode_into m []).take k)) := by
  obtain ⟨ha, hp⟩ := h
  rw [v5req_encode_eq] at hk ⊢
  simp only [List.cons_append, List.nil_append, List.append_assoc] at hk ⊢
  have hkL : k < 5 + (v5.AddressType.encode_into m.addr []).length := by
    simp [u16_be] at hk
    omega
  match k with
  | 0 => exact Or.inl ⟨_, rfl⟩
  | 1 =>
    simp only [List.take_succ_cons, List.take_zero]
    exact Or.inr ⟨_, rfl⟩
  | 2 =>
    simp only [List.take_succ_cons, List.take_zero]
    cases m.command <;> exact Or.inr ⟨_, rfl⟩
  | j + 3 =>
    have hj : j < (v5.AddressType.encode_into m.addr []).length + 2 := by omega
    simp only [List.take_succ_cons]
    rw [v5req_decode_cons]
    apply truncRes_pcontext
    by_cases hjA : j < (v5.AddressType.encode_into m.addr []).length
    · have hTj : (v5.AddressType.encode_into m.addr [] ++ u16_be m.port).take j =
          (v5.AddressType.encode_into m.addr []).take j := by
        rw [List.take_append_eq_append_take]
        simp [Nat.sub_eq_zero_of_le (le_of_lt hjA)]
      rw [hTj]
      rcases addr5_decode_trunc m.addr ha j hjA with ⟨n, hn⟩ | ⟨es, he⟩
      · exact Or.inl ⟨n, by simp [hn]⟩
      · exact Or.inr ⟨es, by simp [he]⟩
    · rcases (by omega :
          j = (v5.AddressType.encode_into m.addr []).length ∨
          j = (v5.AddressType.encode_into m.addr []).length + 1) with hje | hje
      · have hTj : (v5.AddressType.encode_into m.addr [] ++ u16_be m.port).take j =
            v5.AddressType.encode_into m.addr [] := by
          rw [hje, List.take_append_eq_append_take]
          simp
        rw [hTj]
        have hok := addr5_decode_rt m.addr ha []
        rw [List.append_nil] at hok
        exact Or.inr ⟨[], by simp [hok, be_u16_c, mkNomError]⟩
      · have hTj : (v5.AddressType.encode_into m.addr [] ++ u16_be m.port).take j =
            v5.AddressType.encode_into m.addr [] ++ [m.port / 256 % 256] := by
          rw [hje, List.take_append_eq_append_take]
          simp [u16_be, List.take_succ_cons]
        rw [hTj]
        have hok := addr5_decode_rt m.addr ha [m.port / 256 % 256]
        exact Or.inr ⟨[], by simp [hok, be_u16_c, mkNomError]⟩

theorem v4resp_decode_trunc (m : v4.Response) (k : Nat) (hk : k < 8) :
    ∃ n, v4.Response.decode ((v4.Response.encode_into m []).take k) =
      .error (.incomplete n) := by
  obtain ⟨st, ip, p⟩ := m
  obtain ⟨o1, o2, o3, o4⟩ := ip
  have he : v4.Response.encode_into ⟨st, ⟨o1, o2, o3, o4⟩, p⟩ [] =
      [0, st.as_u8, p / 256 % 256, p % 256, o1, o2, o3, o4] := by
    rw [v4resp_encode_eq]
    simp [u16_be, Ipv4Addr.octets]
  rw [he]
  interval_cases k <;> cases st <;> exact ⟨_, rfl⟩

/-- C4 (counterexample): `[5]` is a strict prefix of the valid encoded v5
request `CONNECT 127.0.0.1:80`, yet `v5::Request::decode` reports a
recoverable `Error` of kind `Eof` (the `complete`-mode byte parser inside
`Command::decode`), not an `Incomplete`, contradicting the claim that
truncation always yields Incomplete. -/
theorem C4_counterexample :
    1 < (v5.Request.encode_into ⟨.Connect, .IPv4 ⟨127, 0, 0, 1⟩, 80⟩ []).length ∧
    (v5.Request.encode_into ⟨.Connect, .IPv4 ⟨127, 0, 0, 1⟩, 80⟩ []).take 1 = [5] ∧
    v5.Request.decode [5] =
      .error (.error ⟨[.ekind .eof, .ectx "Socks V5 command", .ectx "Request"]⟩) :=
  ⟨by decide, by decide, rfl⟩

/-- C4 (amended): truncating a valid encoded message never produces a fatal
(`Malformed`) failure, but it does not uniformly produce `Incomplete`:
every strict prefix of a valid encoded v4 Response decodes to `Incomplete`
(all its fields use `streaming` parsers), while a strict prefix of a valid
encoded v5 Request decodes to either `Incomplete` or a recoverable `Error`
whose base kind is `Eof` (its integer fields use `complete` parsers) — both
outcomes are distinct from the fatal `NoneOf` failures raised for bad
command/address tags and from the `Verify` error for a wrong version byte. -/
theorem C4_truncation_behavior :
    (∀ (m : v4.Response) (k : Nat), k < (v4.Response.encode_into m []).length →
      ∃ n, v4.Response.decode ((v4.Response.encode_into m []).take k) =
        .error (.incomplete n)) ∧
    (∀ (m : v5.Request), m.wf → ∀ k, k < (v5.Request.encode_into m []).length →
      truncRes (v5.Request.decode ((v5.Request.encode_into m []).take k))) := by
  constructor
  · intro m k hk
    rw [v4resp_encode_length] at hk
    exact v4resp_decode_trunc m k hk
  · intro m h k hk
    exact v5req_decode_trunc m h k hk

/-- Witness for the amended C4: a five-byte prefix of a v4 response and the
one-byte prefix of a v5 request. -/
theorem C4_truncation_behavior_witness :
    (∃ n, v4.Response.decode
        ((v4.Response.encode_into ⟨.Success, ⟨1, 2, 3, 4⟩, 80⟩ []).take 5) =
      .error (.incomplete n)) ∧
    truncRes (v5.Request.decode
      ((v5.Request.encode_into ⟨.Connect, .IPv4 ⟨127, 0, 0, 1⟩, 80⟩ []).take 1)) :=
  ⟨C4_truncation_behavior.1 ⟨.Success, ⟨1, 2, 3, 4⟩, 80⟩ 5 (by decide),
   C4_truncation_behavior.2 ⟨.Connect, .IPv4 ⟨127, 0, 0, 1⟩, 80⟩
     ⟨trivial, by decide⟩ 1 (by decide)⟩
